import Mathlib

/-!
Shallow embedding of `xin` (src/xin.c), an X11 forwarded-input receiver:
a line-oriented protocol parser/dispatcher (`main`), two key-injection
backends (`xkey` via XTEST replay, `xkey_sendevent` via direct delivery
with a static modifier bitmask), pointer-motion handling with clamping
(`xmotion`), and the keyboard-layout switch coordinator (`xkblayout`).

Machine integers that never overflow in the claims under study are
modelled as `Int`/`Nat`; the modifier bitmask uses `Nat` bitwise
operations (`|||` for `|=`, `Nat.ldiff` for `&= ~`).
-/

namespace Xin

/-- scanf whitespace class (`isspace` in the C locale). -/
def isSpaceC (c : Char) : Bool :=
  c = ' ' ∨ c = '\t' ∨ c = '\n' ∨ c = '\x0b' ∨ c = '\x0c' ∨ c = '\r'

/-- ASCII decimal digit. -/
def isDigitC (c : Char) : Bool := '0' ≤ c ∧ c ≤ '9'

/-- The C locale isalpha: an ASCII letter. -/
def isAlphaC (c : Char) : Bool :=
  ('A' ≤ c ∧ c ≤ 'Z') ∨ ('a' ≤ c ∧ c ≤ 'z')

/-- Numeric value of a digit string (most significant first). -/
def digitsVal (ds : List Char) : Nat :=
  ds.foldl (fun acc c => 10 * acc + (c.toNat - '0'.toNat)) 0

/-- scanf `%d`: skip whitespace, optional sign, then at least one digit.
Returns the parsed value and the unconsumed rest, or `none` on matching
failure. -/
def scanInt (s : List Char) : Option (Int × List Char) :=
  let s1 := s.dropWhile isSpaceC
  let (neg, s2) : Bool × List Char :=
    match s1 with
    | '-' :: r => (true, r)
    | '+' :: r => (false, r)
    | _ => (false, s1)
  let ds := s2.takeWhile isDigitC
  if ds = [] then none
  else
    let v : Int := (digitsVal ds : Int)
    some (if neg then -v else v, s2.dropWhile isDigitC)

/-- sscanf with format `"%c %d"`: `%c` takes the first character
verbatim (no whitespace skipping), then `%d` parses an integer.
Returns `none` when fewer than 2 conversions succeed. -/
def scanCD (s : List Char) : Option (Char × Int × List Char) :=
  match s with
  | [] => none
  | c :: rest =>
    match scanInt rest with
    | none => none
    | some (v, r) => some (c, v, r)

/-- sscanf with format `"%c %d %d"`: as `scanCD`, then a second `%d`.
Returns `none` when fewer than 3 conversions succeed. -/
def scanCDD (s : List Char) : Option (Char × Int × Int × List Char) :=
  match scanCD s with
  | none => none
  | some (c, v1, r) =>
    match scanInt r with
    | none => none
    | some (v2, r2) => some (c, v1, v2, r2)

/-- A command as decoded by the dispatcher in `main`. -/
inductive Cmd where
  /-- Call of xkblayout with the layout name. -/
  | layout (name : List Char)
  /-- Call of xkey or xkey_sendevent: type char, state, keycode. -/
  | key (c : Char) (state : Int) (keycode : Int)
  /-- Call of xmotion. -/
  | motion (dx dy : Int)
  /-- Call of xbutton: type char, state (unused), button. -/
  | button (c : Char) (state : Int) (btn : Int)
  /-- Diagnostic warnx about an unknown control character. -/
  | unknown
  /-- Diagnostic warnx about an invalid or incomplete format. -/
  | invalid
deriving DecidableEq, Repr

/-- The `switch (c)` on the three-field form (src/xin.c:245-260). -/
def dispatch3 (c : Char) (v1 v2 : Int) : Cmd :=
  if c = 'm' then Cmd.motion v1 v2
  else if c = 'b' ∨ c = 'B' then Cmd.button c v1 v2
  else if c = 'k' ∨ c = 'K' then Cmd.key c v1 v2
  else Cmd.unknown

/-- The test `sscanf(buf, "%c %d", &c, &v1) == 2 && (c == 'k' || c == 'K')`
(src/xin.c:236-237). -/
def twoFieldKey (s : List Char) : Option (Char × Int) :=
  match scanCD s with
  | none => none
  | some (c, v, _) => if c = 'k' ∨ c = 'K' then some (c, v) else none

/-- Classification of one NUL-free, newline-free line, mirroring the
if/else chain of `main` (src/xin.c:233-261): the layout test
`buf[0] == 'l' && n > 2` first, then the two-field key form, then the
three-field form. -/
def parseLine (line : List Char) : Cmd :=
  if line.head? = some 'l' ∧ 2 < line.length then Cmd.layout (line.drop 2)
  else
    match twoFieldKey line with
    | some (c, v1) => Cmd.key c v1 0
    | none =>
      match scanCDD line with
      | none => Cmd.invalid
      | some (c, v1, v2, _) => dispatch3 c v1 v2

/-- Observable events of the dispatcher: diagnostics on stderr and
handler invocations. -/
inductive Ev where
  /-- Diagnostic warnx of truncated input (src/xin.c:225). -/
  | warnTrunc
  /-- Diagnostic warnx of invalid or incomplete format (src/xin.c:243). -/
  | warnInvalid
  /-- Diagnostic warnx of an unknown control (src/xin.c:258). -/
  | warnUnknown
  /-- A handler (`xkblayout`/`xkey`/`xmotion`/`xbutton`) is invoked with
  the decoded command. -/
  | dispatch (c : Cmd)
deriving DecidableEq, Repr

/-- Events the dispatcher emits for one complete line. -/
def stepLine (line : List Char) : List Ev :=
  match parseLine line with
  | Cmd.invalid => [Ev.warnInvalid]
  | Cmd.unknown => [Ev.warnUnknown]
  | c => [Ev.dispatch c]

/-- Models n = strcspn(buf, "\r\n") plus the buf[n] inspection
(src/xin.c:222-223): splits a chunk at its first NUL/CR/LF, returning
the prefix before it and that terminator character (`none` when the
chunk has no NUL/CR/LF at all). -/
def lineSplit (cs : List Char) : List Char × Option Char :=
  match cs with
  | [] => ([], none)
  | c :: r =>
    if c = '\x00' ∨ c = '\r' ∨ c = '\n' then ([], some c)
    else (c :: (lineSplit r).1, (lineSplit r).2)

/-- One `fgets(buf, 64, stdin)` call on the remaining stream: consume
characters until `fuel` are taken (the buffer holds `sizeof(buf) - 1 =
63` characters) or a `'\n'` has been taken, returning the chunk read and
the unread rest. -/
def fgetsTake (fuel : Nat) (s : List Char) : List Char × List Char :=
  match fuel, s with
  | 0, s => ([], s)
  | _ + 1, [] => ([], [])
  | fuel + 1, c :: r =>
    if c = '\n' then ([c], r)
    else (c :: (fgetsTake fuel r).1, (fgetsTake fuel r).2)

/-- One iteration body plus fuelled recursion for the
`while (fgets(...))` loop of `main` (src/xin.c:220-262): read a chunk,
detect truncation via `strcspn` (`lineSplit`), maintain
`skip_truncated`, and dispatch complete lines. The fuel only bounds the
number of iterations; `runAux` below supplies enough for the whole
stream. -/
def runAuxF : Nat → Bool → List Char → List Ev
  | 0, _, _ => []
  | fuel + 1, skip, s =>
    if s = [] then []
    else if (lineSplit (fgetsTake 63 s).1).2 = none ∨
        (lineSplit (fgetsTake 63 s).1).2 = some '\x00' then
      (if skip then [] else [Ev.warnTrunc]) ++ runAuxF fuel true (fgetsTake 63 s).2
    else if skip then runAuxF fuel false (fgetsTake 63 s).2
    else stepLine (lineSplit (fgetsTake 63 s).1).1 ++
      runAuxF fuel false (fgetsTake 63 s).2

/-- The `while (fgets(...))` loop of `main` on a whole input stream:
the trace of diagnostics and handler invocations it produces. -/
def runAux (skip : Bool) (s : List Char) : List Ev := runAuxF s.length skip s

/-- The whole of `main`'s input loop and exit (src/xin.c:220-268): the
event trace of the loop, and the exit status, which is nonzero exactly
when the underlying read reported an I/O error (`ferror`/`errno`), and
`EXIT_SUCCESS = 0` on clean end-of-input. -/
def xinMain (input : List Char) (readError : Bool) : List Ev × Nat :=
  (runAux false input, if readError then 1 else 0)

/-- Characters a complete dispatched line can contain: no NUL, no CR,
no LF. -/
def noTerm (l : List Char) : Prop :=
  ∀ c ∈ l, c ≠ '\x00' ∧ c ≠ '\r' ∧ c ≠ '\n'

instance (l : List Char) : Decidable (noTerm l) := by
  unfold noTerm; infer_instance

/-- The display-server session as the handlers consume it: keysym to
keycode translation (`XKeysymToKeycode`), keysym to modifier-bits
translation (`XkbKeysymToModifiers`), input-focus lookup
(`XGetInputFocus`, `none` when it fails), the root window, screen
geometry (`DisplayWidth`/`DisplayHeight`), and the initial pointer
position (`XQueryPointer`). -/
structure Env where
  keysymToKeycode : Int → Nat
  keysymToModifiers : Int → Nat
  focus : Option Nat
  rootWindow : Nat
  width : Int
  height : Int
  queryPointer : Int × Int

/-- Observable interactions of the handlers with the outside world:
warnings on stderr, X requests and the external command. -/
inductive XOut where
  /-- Diagnostic warnx of a keysym without keycode (src/xin.c:55). -/
  | warnNoKeycode
  /-- Diagnostic warnx of missing input focus (src/xin.c:72). -/
  | warnNoFocus
  /-- Diagnostic warnx of special characters in a layout name (src/xin.c:279). -/
  | warnSpecial
  /-- Diagnostic warnx of an over-long layout name (src/xin.c:285). -/
  | warnTooLong
  /-- Request XTestFakeKeyEvent (src/xin.c:58). -/
  | fakeKeyEvent (keycode : Int) (isPress : Bool)
  /-- Request XTestFakeButtonEvent (src/xin.c:99). -/
  | fakeButtonEvent (button : Int) (isPress : Bool)
  /-- Request XTestFakeMotionEvent (src/xin.c:136). -/
  | fakeMotion (x y : Int)
  /-- Request XSendEvent of a KeyPress or KeyRelease to window (src/xin.c:88). -/
  | sendKeyEvent (isPress : Bool) (keycode : Nat) (window : Nat) (modifiers : Nat)
  /-- Request XGrabKey on the sentinel key (src/xin.c:289). -/
  | grabKey
  /-- Request XSync (src/xin.c:291). -/
  | xsync
  /-- The XCheckMaskEvent MappingNotify drain loop (src/xin.c:293,316). -/
  | drainMappings
  /-- Invocation of system(cmd) (src/xin.c:296). -/
  | system (cmd : List Char)
  /-- The XNextEvent loop blocking until a MappingNotify (src/xin.c:299-308). -/
  | waitMapping
deriving DecidableEq, Repr

/-- Models xkey (src/xin.c:45-60), the XTEST replay backend: when the
incoming keycode is 0 derive it from the keysym carried in `state`;
when it is still 0, warn and discard; otherwise inject a fake key
event. Returns the interaction trace. -/
def xkey (env : Env) (type : Char) (state keycode : Int) : List XOut :=
  let is_press : Bool := type = 'k'
  let kc : Int := if keycode = 0 then (env.keysymToKeycode state : Int) else keycode
  if kc = 0 then [XOut.warnNoKeycode]
  else [XOut.fakeKeyEvent kc is_press]

/-- Models xkey_sendevent (src/xin.c:62-91), the direct-delivery backend:
look up the focused window (falling back to the root window with a
warning), derive the keycode from the keysym unconditionally, OR the
keysym's modifier bits into the static `modifiers` bitmask on press and
AND-NOT them out on release (`Nat.ldiff`), and send the event carrying
the updated bitmask directly to the focus window. Returns the new
bitmask and the interaction trace. -/
def xkey_sendevent (env : Env) (modifiers : Nat) (type : Char)
    (state : Int) (_keycode : Int) : Nat × List XOut :=
  let focusWarn : List XOut :=
    if env.focus.isSome then [] else [XOut.warnNoFocus]
  let focus : Nat := env.focus.getD env.rootWindow
  let is_press : Bool := type = 'k'
  let kc : Nat := env.keysymToKeycode state
  let m : Nat :=
    if is_press then modifiers ||| env.keysymToModifiers state
    else Nat.ldiff modifiers (env.keysymToModifiers state)
  (m, focusWarn ++ [XOut.sendKeyEvent is_press kc focus m])

/-- Models xbutton (src/xin.c:93-101): inject a fake button event; state
is accepted but unused. -/
def xbutton (_env : Env) (type : Char) (_state button : Int) : List XOut :=
  [XOut.fakeButtonEvent button (type = 'b')]

/-- The clamp described by the spec: values below 0 map to 0, values at
or above `bound` map to exactly `bound`. -/
def clampSpec (bound v : Int) : Int :=
  if v < 0 then 0 else if bound ≤ v then bound else v

/-- One coordinate of `xmotion`'s update (src/xin.c:126-135): subtract
the delta, then `if (< 0) = 0`, then `if (>= max) = max`, in that
order. -/
def motionCoord (bound v d : Int) : Int :=
  let v1 := v - d
  let v2 := if v1 < 0 then 0 else v1
  if bound ≤ v2 then bound else v2

/-- The position `xmotion` stores and injects, from the current
position `(x, y)` and the command `(dx, dy)`. -/
def xmotionStep (w h x y dx dy : Int) : Int × Int :=
  (motionCoord w x dx, motionCoord h y dy)

/-- Models xmotion (src/xin.c:103-138) once the pointer state is seeded:
update the static position and inject an absolute motion event there.
Returns the new position and the interaction trace. -/
def xmotion (env : Env) (p : Int × Int) (dx dy : Int) :
    (Int × Int) × List XOut :=
  let p2 := xmotionStep env.width env.height p.1 p.2 dx dy
  (p2, [XOut.fakeMotion p2.1 p2.2])

/-- Models xkblayout (src/xin.c:271-318): reject a name with any
non-alphabetic character (warning, nothing else); reject a name for
which `snprintf("setxkbmap %s")` would need at least the 128-byte
buffer (warning, nothing else); otherwise grab the sentinel key, sync,
drain pending MappingNotify events, run the external command, block for
a MappingNotify and drain again. Returns the interaction trace. -/
def xkblayout (_env : Env) (layout : List Char) : List XOut :=
  if ¬ layout.all isAlphaC then [XOut.warnSpecial]
  else if 128 ≤ ("setxkbmap ".toList ++ layout).length then [XOut.warnTooLong]
  else
    [XOut.grabKey, XOut.xsync, XOut.drainMappings,
     XOut.system ("setxkbmap ".toList ++ layout),
     XOut.waitMapping, XOut.drainMappings]

/-- The injection backend selected once at startup (src/xin.c:211-218). -/
inductive Method where
  | xtest
  | sendevent
deriving DecidableEq, Repr

/-- The process-lifetime mutable state of the handlers: the static
`XButtonEvent xb` of `xmotion` (`none` until seeded by the first motion
command) and the static `modifiers` of `xkey_sendevent`. -/
structure St where
  ptr : Option (Int × Int)
  modifiers : Nat
deriving DecidableEq, Repr

/-- How dispatching one decoded command updates the process state,
mirroring `main`'s dispatch (src/xin.c:236-261): the two-field key form
(keycode 0) goes to `xkey_sendevent` only under the sendevent method;
motion seeds the pointer on first use then stores the clamped update;
everything else leaves the state alone. -/
def execCmd (env : Env) (method : Method) (st : St) (c : Cmd) : St :=
  match c with
  | Cmd.motion dx dy =>
    let p := st.ptr.getD env.queryPointer
    { st with ptr := some (xmotionStep env.width env.height p.1 p.2 dx dy) }
  | Cmd.key ch s kc =>
    if method = Method.sendevent ∧ kc = 0 then
      { st with modifiers := (xkey_sendevent env st.modifiers ch s kc).1 }
    else st
  | _ => st

/-- A concrete display-server session used by the witnesses: keysym to
keycode derivation always fails (yields 0), every keysym maps to
modifier bit 0, focus is window 1, and the screen is 800x600 with the
pointer initially at (100, 100). -/
def envA : Env :=
  { keysymToKeycode := fun _ => 0
    keysymToModifiers := fun _ => 1
    focus := some 1
    rootWindow := 0
    width := 800
    height := 600
    queryPointer := (100, 100) }

theorem fgetsTake_length (fuel : Nat) (s : List Char) :
    (fgetsTake fuel s).1.length + (fgetsTake fuel s).2.length = s.length := by
  induction fuel generalizing s with
  | zero => simp [fgetsTake]
  | succ n ih =>
    cases s with
    | nil => simp [fgetsTake]
    | cons c r =>
      have := ih r
      by_cases h : c = '\n' <;> simp [fgetsTake, h] <;> omega

theorem fgetsTake_ne_nil (fuel : Nat) (s : List Char) (hs : s ≠ [])
    (hf : 0 < fuel) : (fgetsTake fuel s).1 ≠ [] := by
  cases fuel with
  | zero => omega
  | succ n =>
    cases s with
    | nil => exact absurd rfl hs
    | cons c r =>
      by_cases h : c = '\n' <;> simp [fgetsTake, h]

theorem fgetsTake_rest_lt (s : List Char) (hs : s ≠ []) :
    (fgetsTake 63 s).2.length < s.length := by
  have h1 := fgetsTake_length 63 s
  have h2 := fgetsTake_ne_nil 63 s hs (by omega)
  have h3 : 0 < (fgetsTake 63 s).1.length := List.length_pos.mpr h2
  omega

theorem runAuxF_nil (f : Nat) (skip : Bool) : runAuxF f skip [] = [] := by
  cases f <;> simp [runAuxF]

theorem runAuxF_congr (f g : Nat) (skip : Bool) (s : List Char)
    (hf : s.length ≤ f) (hg : s.length ≤ g) :
    runAuxF f skip s = runAuxF g skip s := by
  induction f generalizing g skip s with
  | zero =>
    have : s = [] := List.eq_nil_of_length_eq_zero (by omega)
    subst this
    simp [runAuxF_nil]
  | succ n ih =>
    rcases s with _ | ⟨c, r⟩
    · simp [runAuxF_nil]
    · obtain ⟨m, rfl⟩ : ∃ m, g = m + 1 := ⟨g - 1, by simp at hg; omega⟩
      have hrest := fgetsTake_rest_lt (c :: r) (by simp)
      have h1 : (fgetsTake 63 (c :: r)).2.length ≤ n := by
        simp at hf hrest ⊢; omega
      have h2 : (fgetsTake 63 (c :: r)).2.length ≤ m := by
        simp at hg hrest ⊢; omega
      simp only [runAuxF]
      rw [ih m true (fgetsTake 63 (c :: r)).2 h1 h2,
        ih m false (fgetsTake 63 (c :: r)).2 h1 h2]

theorem noTerm_no_newline {l : List Char} (h : noTerm l) : '\n' ∉ l := by
  intro hm
  exact (h '\n' hm).2.2 rfl

theorem lineSplit_noTerm (l : List Char) (h : noTerm l) :
    lineSplit l = (l, none) := by
  induction l with
  | nil => rfl
  | cons c r ih =>
    have hc := h c (List.mem_cons_self c r)
    have hr : noTerm r := fun x hx => h x (List.mem_cons_of_mem c hx)
    simp [lineSplit, hc.1, hc.2.1, hc.2.2, ih hr]

theorem lineSplit_newline (l t : List Char) (h : noTerm l) :
    lineSplit (l ++ '\n' :: t) = (l, some '\n') := by
  induction l with
  | nil => simp [lineSplit]
  | cons c r ih =>
    have hc := h c (List.mem_cons_self c r)
    have hr : noTerm r := fun x hx => h x (List.mem_cons_of_mem c hx)
    simp [lineSplit, hc.1, hc.2.1, hc.2.2, ih hr]

theorem fgetsTake_newline (f : Nat) (l s : List Char) (h : '\n' ∉ l)
    (hlen : l.length < f) : fgetsTake f (l ++ '\n' :: s) = (l ++ ['\n'], s) := by
  induction f generalizing l with
  | zero => omega
  | succ n ih =>
    cases l with
    | nil => simp [fgetsTake]
    | cons c r =>
      have hc : c ≠ '\n' := fun hc => h (hc ▸ List.mem_cons_self c r)
      have hr : '\n' ∉ r := fun hx => h (List.mem_cons_of_mem c hx)
      simp only [List.cons_append, fgetsTake, if_neg hc, List.append_eq]
      rw [ih r hr (by simp at hlen ⊢; omega)]

theorem fgetsTake_no_newline (f : Nat) (l s : List Char) (h : '\n' ∉ l)
    (hlen : f ≤ l.length) :
    fgetsTake f (l ++ s) = (l.take f, l.drop f ++ s) := by
  induction f generalizing l with
  | zero =>
    cases l <;> simp [fgetsTake]
  | succ n ih =>
    cases l with
    | nil => simp at hlen
    | cons c r =>
      have hc : c ≠ '\n' := fun hc => h (hc ▸ List.mem_cons_self c r)
      have hr : '\n' ∉ r := fun hx => h (List.mem_cons_of_mem c hx)
      simp only [List.cons_append, fgetsTake, if_neg hc, List.append_eq]
      rw [ih r hr (by simp at hlen ⊢; omega)]
      simp

/-- One unfolding of the read loop on a nonempty stream. -/
theorem runAux_step (skip : Bool) (s : List Char) (hs : s ≠ []) :
    runAux skip s =
      if (lineSplit (fgetsTake 63 s).1).2 = none ∨
          (lineSplit (fgetsTake 63 s).1).2 = some '\x00' then
        (if skip then [] else [Ev.warnTrunc]) ++ runAux true (fgetsTake 63 s).2
      else if skip then runAux false (fgetsTake 63 s).2
      else stepLine (lineSplit (fgetsTake 63 s).1).1 ++
        runAux false (fgetsTake 63 s).2 := by
  rcases s with _ | ⟨c, r⟩
  · exact absurd rfl hs
  · have hrest := fgetsTake_rest_lt (c :: r) (by simp)
    have hb : (fgetsTake 63 (c :: r)).2.length ≤ r.length := by
      simp at hrest; omega
    unfold runAux
    simp only [List.length_cons, runAuxF]
    rw [if_neg (by simp : ¬(c :: r = []))]
    rw [runAuxF_congr r.length (fgetsTake 63 (c :: r)).2.length true
      (fgetsTake 63 (c :: r)).2 hb le_rfl]
    rw [runAuxF_congr r.length (fgetsTake 63 (c :: r)).2.length false
      (fgetsTake 63 (c :: r)).2 hb le_rfl]

/-- A complete (buffer-fitting, newline-terminated) line: when not in
skip mode it is dispatched; when in skip mode it is consumed, ending
the skip. -/
theorem runAux_line (skip : Bool) (line rest : List Char)
    (h1 : line.length ≤ 62) (h2 : noTerm line) :
    runAux skip (line ++ '\n' :: rest) =
      (if skip then [] else stepLine line) ++ runAux false rest := by
  rw [runAux_step skip _ (by simp)]
  rw [fgetsTake_newline 63 line rest (noTerm_no_newline h2) (by omega)]
  rw [show line ++ ['\n'] = line ++ '\n' :: [] from rfl,
    lineSplit_newline line [] h2]
  cases skip <;> simp

/-- A chunk of an over-long line: 63 characters are consumed, the
truncation warning is emitted only when not already in skip mode, and
skip mode is entered. -/
theorem runAux_trunc (skip : Bool) (long suffix : List Char)
    (h1 : 63 ≤ long.length) (h2 : noTerm long) :
    runAux skip (long ++ suffix) =
      (if skip then [] else [Ev.warnTrunc]) ++
        runAux true (long.drop 63 ++ suffix) := by
  rw [runAux_step skip _ (by rcases long with _ | ⟨c, r⟩ <;> simp at h1 ⊢)]
  rw [fgetsTake_no_newline 63 long suffix (noTerm_no_newline h2) h1]
  rw [lineSplit_noTerm (long.take 63)
    (fun c hc => h2 c (List.take_subset 63 long hc))]
  simp

/-- In skip mode, everything up to and including the next newline is
consumed without any event, after which dispatch resumes. -/
theorem runAux_skip_to_newline (n : Nat) :
    ∀ long rest : List Char, long.length ≤ n → noTerm long →
      runAux true (long ++ '\n' :: rest) = runAux false rest := by
  induction n with
  | zero =>
    intro long rest hlen hnt
    have : long = [] := List.eq_nil_of_length_eq_zero (by omega)
    subst this
    rw [runAux_line true [] rest (by simp) (by intro c hc; simp at hc)]
    simp
  | succ k ih =>
    intro long rest hlen hnt
    by_cases h : long.length ≤ 62
    · rw [runAux_line true long rest h hnt]
      simp
    · rw [runAux_trunc true long ('\n' :: rest) (by omega) hnt]
      rw [ih (long.drop 63) rest (by simp; omega)
        (fun c hc => hnt c (List.drop_subset 63 long hc))]
      simp

theorem motionCoord_eq_clampSpec (b v d : Int) (hb : 0 ≤ b) :
    motionCoord b v d = clampSpec b (v - d) := by
  simp only [motionCoord, clampSpec]
  split_ifs <;> omega

theorem motionCoord_bounds (b v d : Int) (hb : 0 ≤ b) :
    0 ≤ motionCoord b v d ∧ motionCoord b v d ≤ b := by
  simp only [motionCoord]
  split_ifs <;> omega

theorem dispatch3_ne_layout (c : Char) (v1 v2 : Int) (nm : List Char) :
    dispatch3 c v1 v2 ≠ Cmd.layout nm := by
  unfold dispatch3
  split_ifs <;> simp

theorem scanCDD_scanCD {s : List Char} {c : Char} {v1 v2 : Int}
    {r : List Char} (h : scanCDD s = some (c, v1, v2, r)) :
    ∃ r1, scanCD s = some (c, v1, r1) := by
  cases h1 : scanCD s with
  | none => simp [scanCDD, h1] at h
  | some t =>
    obtain ⟨c2, v, r1⟩ := t
    cases h2 : scanInt r1 with
    | none => simp [scanCDD, h1, h2] at h
    | some p =>
      obtain ⟨v2x, r2⟩ := p
      simp [scanCDD, h1, h2] at h
      obtain ⟨rfl, rfl, rfl, rfl⟩ := h
      exact ⟨r1, rfl⟩

/-- The `case 'k'`/`case 'K'` arm of the three-field switch
(src/xin.c:253-255) is unreachable: every key command the dispatcher
produces carries keycode 0, because `sscanf(buf, "%c %d", ...)` already
succeeds with 2 conversions on any line the three-field form would
match. -/
theorem parseLine_key_keycode_zero (line : List Char) (c : Char)
    (v1 v2 : Int) (h : parseLine line = Cmd.key c v1 v2) : v2 = 0 := by
  unfold parseLine at h
  by_cases hl : line.head? = some 'l' ∧ 2 < line.length
  · rw [if_pos hl] at h
    cases h
  · rw [if_neg hl] at h
    cases h2 : twoFieldKey line with
    | some cv =>
      obtain ⟨c2, v⟩ := cv
      rw [h2] at h
      simp at h
      omega
    | none =>
      cases h3 : scanCDD line with
      | none => rw [h2, h3] at h; simp at h
      | some t =>
        obtain ⟨c2, v1x, v2x, r⟩ := t
        obtain ⟨r1, hcd⟩ := scanCDD_scanCD h3
        have hk : ¬(c2 = 'k' ∨ c2 = 'K') := by
          intro hc
          simp [twoFieldKey, hcd, hc] at h2
        rw [h2, h3] at h
        simp only [dispatch3] at h
        split_ifs at h

/-- C1: the claim says a three-field `k <int1> <int2>` line yields a key
command with explicit keycode `int2`; the code instead matches such a
line with the two-field `sscanf("%c %d")` test first and dispatches it
with keycode 0, ignoring the third field (`k 5 7` becomes
`KeyCommand { state = 5, keycode = 0 }`, not keycode 7). -/
theorem C1_three_field_keycode_ignored :
    parseLine ("k 5 7".toList) = Cmd.key 'k' 5 0 ∧
      parseLine ("k 5 7".toList) ≠ Cmd.key 'k' 5 7 := by
  constructor
  · decide
  · decide

/-- C2: a motion command `(dx, dy)` from position `(x, y)` on a
`W x H` screen moves the pointer to
`(clamp(x - dx, 0, W), clamp(y - dy, 0, H))` — deltas subtracted, the
lower clamp to 0 and the upper clamp to exactly the bound — and injects
an absolute motion event at exactly that position. -/
theorem C2_motion_clamp (env : Env) (p : Int × Int) (dx dy : Int)
    (hW : 0 ≤ env.width) (hH : 0 ≤ env.height) :
    xmotion env p dx dy =
      ((clampSpec env.width (p.1 - dx), clampSpec env.height (p.2 - dy)),
       [XOut.fakeMotion (clampSpec env.width (p.1 - dx))
          (clampSpec env.height (p.2 - dy))]) := by
  unfold xmotion xmotionStep
  rw [motionCoord_eq_clampSpec env.width p.1 dx hW,
    motionCoord_eq_clampSpec env.height p.2 dy hH]

/-- Witness for C2 at the spec's own scenario: `(100,100)` on an
`800x600` screen with command `(5,5)` yields `(95,95)`. -/
theorem C2_motion_clamp_witness :
    xmotion envA (100, 100) 5 5 = ((95, 95), [XOut.fakeMotion 95 95]) := by
  rw [C2_motion_clamp envA (100, 100) 5 5 (by decide) (by decide)]
  decide

/-- C3 counterexample: the claim fails when a bit of the keysym's
modifier bits is already set at the press. In `envA` every keysym maps
to modifier bit 0: pressing keysym 65 from bitmask 0 sets it to 1; a
press of keysym 66 then finds pre-press value 1, and its matching
release drops the bitmask to 0, not back to the pre-press value 1. -/
theorem C3_press_release_counterexample :
    (xkey_sendevent envA 0 'k' 65 0).1 = 1 ∧
    (xkey_sendevent envA 1 'k' 66 0).1 = 1 ∧
    (xkey_sendevent envA 1 'K' 66 0).1 = 0 ∧ (0 : Nat) ≠ 1 := by
  refine ⟨by decide, by decide, ?_, by decide⟩
  show (xkey_sendevent envA 1 'K' 66 0).1 = 0
  simp [xkey_sendevent, envA, Nat.ldiff, Nat.bitwise]

/-- C3 amended: in the direct-delivery path, a press of a keysym whose
modifier bits are all clear in the current bitmask, followed by its
release, restores the bitmask to its pre-press value (press ORs the
bits in, release ANDs them out); and a press always leaves the keysym's
modifier bits set. -/
theorem C3_modifier_roundtrip (env : Env) (m : Nat) (s : Int)
    (hdisj : m &&& env.keysymToModifiers s = 0) :
    (xkey_sendevent env ((xkey_sendevent env m 'k' s 0).1) 'K' s 0).1 = m ∧
    ((xkey_sendevent env m 'k' s 0).1 &&& env.keysymToModifiers s =
      env.keysymToModifiers s) := by
  have hpress : (xkey_sendevent env m 'k' s 0).1 =
      m ||| env.keysymToModifiers s := by
    simp [xkey_sendevent]
  constructor
  · rw [hpress]
    have hrel : (xkey_sendevent env (m ||| env.keysymToModifiers s) 'K' s 0).1 =
        Nat.ldiff (m ||| env.keysymToModifiers s) (env.keysymToModifiers s) := by
      simp [xkey_sendevent]
    rw [hrel]
    apply Nat.eq_of_testBit_eq
    intro i
    have hb : (m &&& env.keysymToModifiers s).testBit i = false := by
      rw [hdisj]
      simp
    rw [Nat.testBit_land] at hb
    rw [Nat.testBit_ldiff, Nat.testBit_lor]
    cases hm : m.testBit i <;> cases hbb : (env.keysymToModifiers s).testBit i <;>
      simp_all
  · rw [hpress]
    apply Nat.eq_of_testBit_eq
    intro i
    rw [Nat.testBit_land, Nat.testBit_lor]
    cases (env.keysymToModifiers s).testBit i <;> simp

/-- Witness for C3 amended: bitmask 8 is disjoint from modifier bits 1,
so press/release of keysym 65 under `envA` round-trips to 8. -/
theorem C3_modifier_roundtrip_witness :
    (xkey_sendevent envA ((xkey_sendevent envA 8 'k' 65 0).1) 'K' 65 0).1 = 8 ∧
    ((xkey_sendevent envA 8 'k' 65 0).1 &&& envA.keysymToModifiers 65 =
      envA.keysymToModifiers 65) :=
  C3_modifier_roundtrip envA 8 65 (by decide)

/-- C4 counterexample: the line `lxy` does not begin with `l` followed
by a space, yet the code's test `buf[0] == 'l' && n > 2` classifies it
as a layout command with name `y` (the remainder after the first two
characters, whatever the second character is). -/
theorem C4_layout_no_space_counterexample :
    parseLine ['l', 'x', 'y'] = Cmd.layout ['y'] ∧
      ['l', 'x', 'y'].get? 1 ≠ some ' ' := by
  constructor
  · decide
  · decide

/-- C4 amended: a line is classified as a layout command iff its first
character is `l` and its length is at least 3 — the second character is
never inspected and need not be a space — and the layout name is
exactly the remainder of the line after its first two characters. -/
theorem C4_layout_iff (line name : List Char) :
    parseLine line = Cmd.layout name ↔
      (line.head? = some 'l' ∧ 2 < line.length ∧ name = line.drop 2) := by
  constructor
  · intro h
    unfold parseLine at h
    by_cases hc : line.head? = some 'l' ∧ 2 < line.length
    · rw [if_pos hc] at h
      simp at h
      exact ⟨hc.1, hc.2, h.symm⟩
    · rw [if_neg hc] at h
      exfalso
      cases h2 : twoFieldKey line with
      | some cv =>
        obtain ⟨c2, v⟩ := cv
        rw [h2] at h
        simp at h
      | none =>
        cases h3 : scanCDD line with
        | none => rw [h2, h3] at h; simp at h
        | some t =>
          obtain ⟨c2, v1x, v2x, r⟩ := t
          rw [h2, h3] at h
          simp at h
          exact dispatch3_ne_layout c2 v1x v2x name h
  · rintro ⟨h1, h2, rfl⟩
    unfold parseLine
    rw [if_pos ⟨h1, h2⟩]

/-- Witness for C4 amended: `l us` is a layout command with name `us`. -/
theorem C4_layout_iff_witness :
    parseLine ['l', ' ', 'u', 's'] = Cmd.layout ['u', 's'] :=
  (C4_layout_iff ['l', ' ', 'u', 's'] ['u', 's']).mpr (by decide)

/-- C5: an over-long (63 or more characters, hence unterminated within
the 64-byte `fgets` buffer) line produces exactly one truncation
diagnostic, no dispatch at all for the truncated content including its
trailing remainder, and the trace continues exactly as the normal run
of the rest of the input after the terminating newline. -/
theorem C5_truncation_run (long rest : List Char)
    (hlen : 63 ≤ long.length) (hnt : noTerm long) :
    runAux false (long ++ '\n' :: rest) = Ev.warnTrunc :: runAux false rest := by
  rw [runAux_trunc false long ('\n' :: rest) hlen hnt]
  rw [runAux_skip_to_newline (long.drop 63).length (long.drop 63) rest le_rfl
    (fun c hc => hnt c (List.drop_subset 63 long hc))]
  simp

/-- Witness for C5: a 70-character run of `a` followed by `m 1 2`. -/
theorem C5_truncation_run_witness :
    runAux false (List.replicate 70 'a' ++ '\n' :: "m 1 2\n".toList) =
      Ev.warnTrunc :: runAux false ("m 1 2\n".toList) :=
  C5_truncation_run (List.replicate 70 'a') ("m 1 2\n".toList)
    (by decide) (by decide)

/-- C6: the external layout-switching command is invoked only when
every character of the requested name is alphabetic; a name with any
non-alphabetic character yields exactly one warning and nothing else —
no external command, no display-server interaction. -/
theorem C6_layout_validation (env : Env) (name : List Char) :
    ((∃ c ∈ name, ¬ isAlphaC c) → xkblayout env name = [XOut.warnSpecial]) ∧
    (∀ cmd, XOut.system cmd ∈ xkblayout env name → ∀ c ∈ name, isAlphaC c) := by
  constructor
  · rintro ⟨c, hc, hnc⟩
    unfold xkblayout
    rw [if_pos]
    simp only [List.all_eq_true, not_forall]
    exact ⟨c, hc, hnc⟩
  · intro cmd hmem c hc
    by_contra hna
    unfold xkblayout at hmem
    rw [if_pos (by
      simp only [List.all_eq_true, not_forall]
      exact ⟨c, hc, hna⟩)] at hmem
    simp at hmem

/-- Witness for C6: `l us-2` (name `us-2`) is rejected with exactly the
one warning and no further interaction. -/
theorem C6_layout_validation_witness :
    xkblayout envA ['u', 's', '-', '2'] = [XOut.warnSpecial] :=
  (C6_layout_validation envA ['u', 's', '-', '2']).1 (by decide)

/-- C7: a malformed or unrecognized complete line contributes exactly
one diagnostic (invalid-format or unknown-control) to the trace and the
loop continues with the rest of the input unchanged; the exit status of
`main`'s loop is 0 (success) whenever the read ended cleanly, for any
input, and nonzero exactly when the read reported an I/O error. -/
theorem C7_malformed_nonfatal (line rest input : List Char) (e : Bool)
    (h1 : line.length ≤ 62) (h2 : noTerm line)
    (h3 : parseLine line = Cmd.invalid ∨ parseLine line = Cmd.unknown) :
    (∃ w, (w = Ev.warnInvalid ∨ w = Ev.warnUnknown) ∧
      (xinMain (line ++ '\n' :: rest) e).1 = w :: runAux false rest) ∧
    (xinMain input false).2 = 0 ∧ (xinMain input true).2 = 1 := by
  refine ⟨?_, rfl, rfl⟩
  have hstep : (xinMain (line ++ '\n' :: rest) e).1 =
      stepLine line ++ runAux false rest := by
    show runAux false (line ++ '\n' :: rest) = _
    rw [runAux_line false line rest h1 h2]
    rfl
  rcases h3 with h | h
  · exact ⟨Ev.warnInvalid, Or.inl rfl, by
      rw [hstep]
      unfold stepLine
      rw [h]
      rfl⟩
  · exact ⟨Ev.warnUnknown, Or.inr rfl, by
      rw [hstep]
      unfold stepLine
      rw [h]
      rfl⟩

/-- Witness for C7: the malformed line `zz` warns once and the run
continues into `m 1 2`; exit codes as claimed. -/
theorem C7_malformed_nonfatal_witness :
    (∃ w, (w = Ev.warnInvalid ∨ w = Ev.warnUnknown) ∧
      (xinMain ("zz".toList ++ '\n' :: "m 1 2\n".toList) true).1 =
        w :: runAux false ("m 1 2\n".toList)) ∧
    (xinMain ("q\n".toList) false).2 = 0 ∧ (xinMain ("q\n".toList) true).2 = 1 :=
  C7_malformed_nonfatal ("zz".toList) ("m 1 2\n".toList) ("q\n".toList) true
    (by decide) (by decide) (by decide)

/-- C8: dispatching a motion command always leaves the stored pointer
position within `[0, width] x [0, height]` (whatever it was seeded
with), and dispatching any non-motion command leaves the pointer state
untouched. -/
theorem C8_pointer_invariant (env : Env) (method : Method) (st : St)
    (hW : 0 ≤ env.width) (hH : 0 ≤ env.height) :
    (∀ dx dy, ∃ x y,
      (execCmd env method st (Cmd.motion dx dy)).ptr = some (x, y) ∧
      0 ≤ x ∧ x ≤ env.width ∧ 0 ≤ y ∧ y ≤ env.height) ∧
    (∀ c : Cmd, (∀ dx dy, c ≠ Cmd.motion dx dy) →
      (execCmd env method st c).ptr = st.ptr) := by
  constructor
  · intro dx dy
    refine ⟨motionCoord env.width (st.ptr.getD env.queryPointer).1 dx,
      motionCoord env.height (st.ptr.getD env.queryPointer).2 dy, rfl, ?_⟩
    have hx := motionCoord_bounds env.width (st.ptr.getD env.queryPointer).1 dx hW
    have hy := motionCoord_bounds env.height (st.ptr.getD env.queryPointer).2 dy hH
    exact ⟨hx.1, hx.2, hy.1, hy.2⟩
  · intro c hc
    cases c with
    | motion dx dy => exact absurd rfl (hc dx dy)
    | key ch s kc =>
      simp only [execCmd]
      split <;> rfl
    | layout nm => rfl
    | button ch s b => rfl
    | unknown => rfl
    | invalid => rfl

/-- Witness for C8 under `envA` (800x600, pointer seed (100,100)):
motion (5,5) yields an in-bounds position; the invalid command leaves
the unseeded pointer state untouched. -/
theorem C8_pointer_invariant_witness :
    (∃ x y,
      (execCmd envA Method.xtest ⟨none, 0⟩ (Cmd.motion 5 5)).ptr = some (x, y) ∧
      0 ≤ x ∧ x ≤ envA.width ∧ 0 ≤ y ∧ y ≤ envA.height) ∧
    (execCmd envA Method.xtest ⟨none, 0⟩ Cmd.invalid).ptr = none :=
  ⟨(C8_pointer_invariant envA Method.xtest ⟨none, 0⟩ (by decide) (by decide)).1 5 5,
   (C8_pointer_invariant envA Method.xtest ⟨none, 0⟩ (by decide) (by decide)).2
     Cmd.invalid (fun dx dy => by simp)⟩

/-- C9: when keysym-to-keycode derivation fails (yields 0) and focus is
found, the direct-delivery path emits no diagnostic and does not
discard the command: it still updates the modifier bitmask (OR on
press, AND-NOT on release) and delivers a key event carrying keycode 0
to the focus window — while the replay path warns and injects
nothing. -/
theorem C9_sendevent_no_discard (env : Env) (m : Nat) (s kc : Int)
    (t : Char) (w : Nat) (hkc : env.keysymToKeycode s = 0)
    (hf : env.focus = some w) :
    xkey env t s 0 = [XOut.warnNoKeycode] ∧
    (xkey_sendevent env m t s kc).2 =
      [XOut.sendKeyEvent (t = 'k') 0 w ((xkey_sendevent env m t s kc).1)] ∧
    (xkey_sendevent env m t s kc).1 =
      (if t = 'k' then m ||| env.keysymToModifiers s
       else Nat.ldiff m (env.keysymToModifiers s)) := by
  refine ⟨?_, ?_, ?_⟩
  · unfold xkey
    simp [hkc]
  · unfold xkey_sendevent
    simp [hf, hkc]
  · unfold xkey_sendevent
    simp

/-- Witness for C9 under `envA`, whose derivation always yields 0. -/
theorem C9_sendevent_no_discard_witness :
    xkey envA 'k' 65 0 = [XOut.warnNoKeycode] ∧
    (xkey_sendevent envA 5 'k' 65 0).2 =
      [XOut.sendKeyEvent ('k' = 'k') 0 1 ((xkey_sendevent envA 5 'k' 65 0).1)] ∧
    (xkey_sendevent envA 5 'k' 65 0).1 =
      (if 'k' = 'k' then 5 ||| envA.keysymToModifiers 65
       else Nat.ldiff 5 (envA.keysymToModifiers 65)) :=
  C9_sendevent_no_discard envA 5 65 0 'k' 1 rfl rfl

/-- C10: an entirely-alphabetic layout name of 118 or more characters
makes `snprintf("setxkbmap %s")` report a result that does not fit the
128-byte buffer, so the coordinator warns "layout name too long" and
invokes nothing. -/
theorem C10_layout_too_long (env : Env) (name : List Char)
    (halpha : ∀ c ∈ name, isAlphaC c) (hlen : 118 ≤ name.length) :
    xkblayout env name = [XOut.warnTooLong] := by
  have h0 : ("setxkbmap ".toList).length = 10 := by decide
  unfold xkblayout
  rw [if_neg (by
    simp only [List.all_eq_true, not_not]
    exact fun c hc => halpha c hc)]
  rw [if_pos (by rw [List.length_append, h0]; omega)]

/-- Witness for C10: 118 copies of `a`. -/
theorem C10_layout_too_long_witness :
    xkblayout envA (List.replicate 118 'a') = [XOut.warnTooLong] :=
  C10_layout_too_long envA (List.replicate 118 'a') (by decide) (by decide)

end Xin

